import Mathlib

/-!
Shallow embedding of the Scribble-Squad Room Session Engine
(backend rooms router: `src/frontend/src/App.tsx`, lines 349-910, the
embedded `routes/rooms.js` module).

Modelling conventions:
* JS strings are Lean `String`; `String.prototype.toLowerCase`,
  `toUpperCase` and `trim` are modelled by ASCII-only, list-based
  `jsLower`, `jsUpper`, `jsTrim` (the game data is ASCII).
* JS numbers are modelled by `Int` where finite; a `JsNum` is a finite
  integer, `NaN` (also `Number(undefined)`), or `±Infinity`.  Only finite
  values pass `Number.isFinite`; in a boolean position `NaN` and `0` are
  falsy while `±Infinity` is truthy.
* Random ids (`msg_...`, `stroke_...`) and timestamps (`Date.now()`,
  `createdAt`, `ts`) are omitted from the model: no verified claim
  mentions them, and they carry no game semantics.
* Each HTTP handler becomes a pure function from the looked-up room
  (`Option Room`, mirroring `rooms.get(roomId)`) and its request inputs
  to a `Step`: the response status category, the room stored afterwards,
  and whether `notifyRoomUpdated` fired.  Early returns are translated
  in source order, returning the room exactly as it stands at that
  point, so "no mutation on failure" is a theorem, not an assumption.
-/

namespace Scribble

/-- ASCII lower-casing of one character, as `toLowerCase` acts on A-Z. -/
def lowerChar (c : Char) : Char :=
  if 'A' ≤ c ∧ c ≤ 'Z' then Char.ofNat (c.toNat + 32) else c

/-- ASCII upper-casing of one character, as `toUpperCase` acts on a-z. -/
def upperChar (c : Char) : Char :=
  if 'a' ≤ c ∧ c ≤ 'z' then Char.ofNat (c.toNat - 32) else c

/-- `String.prototype.toLowerCase` (ASCII fragment). -/
def jsLower (s : String) : String := String.mk (s.data.map lowerChar)

/-- `String.prototype.toUpperCase` (ASCII fragment). -/
def jsUpper (s : String) : String := String.mk (s.data.map upperChar)

/-- Whitespace characters recognised by `String.prototype.trim` (ASCII fragment). -/
def isJsSpace (c : Char) : Bool :=
  c == ' ' || c == '\t' || c == '\n' || c == '\r' || c == '\x0b' || c == '\x0c'

/-- `String.prototype.trim` (ASCII fragment). -/
def jsTrim (s : String) : String :=
  String.mk (((s.data.dropWhile isJsSpace).reverse.dropWhile isJsSpace).reverse)

/-- The regex class `[A-Za-z0-9]` used by `maskWord`. -/
def isAlnum (c : Char) : Bool :=
  ('A' ≤ c && c ≤ 'Z') || ('a' ≤ c && c ≤ 'z') || ('0' ≤ c && c ≤ '9')

/-- A JS number as consumed by `Number(...)`: a finite value (modelled
as an integer), `NaN` (also `Number(undefined)`), or `±Infinity`.  Only
`fin` values pass `Number.isFinite`; in a boolean position `NaN` and `0`
are falsy while `±Infinity` is truthy. -/
inductive JsNum where
  | fin (v : Int)
  | nan
  | inf
  | negInf
deriving Repr, DecidableEq

/-- Room phase: `"lobby"` or `"playing"`. -/
inductive Phase where
  | lobby
  | playing
deriving Repr, DecidableEq

/-- Chat message kind: `"guess"` or `"system"`. -/
inductive MsgType where
  | guess
  | system
deriving Repr, DecidableEq

/-- A chat/system message (random `id` and `ts` omitted, see header). -/
structure Message where
  type : MsgType
  username : String
  text : String
deriving Repr, DecidableEq

/-- A 2-D canvas point with finite coordinates. -/
structure Point where
  x : Int
  y : Int
deriving Repr, DecidableEq

/-- Stroke mode: freehand `"stroke"` or whole-canvas `"fill"`. -/
inductive StrokeMode where
  | stroke
  | fill
deriving Repr, DecidableEq

/-- A stored stroke (random `id` omitted, see header). -/
structure Stroke where
  mode : StrokeMode
  color : String
  size : Int
  points : List Point
deriving Repr, DecidableEq

/-- A room record as held in the `rooms` map (`createdAt` omitted, see
header).  `scores` is the JS object keyed by canonical player name;
`guessedPlayers` is the JS `Set` in insertion order. -/
structure Room where
  id : String
  phase : Phase
  creator : String
  host : String
  drawer : Option String
  word : String
  players : List String
  scores : List (String × Int)
  guessedPlayers : List String
  messages : List Message
  strokes : List Stroke
deriving Repr, DecidableEq

/-- Response error categories: HTTP 404 / 400 / 403 respectively. -/
inductive Err where
  | notFound
  | validation
  | policy
deriving Repr, DecidableEq

/-- Outcome of one handler call. -/
inductive Res where
  | ok
  | err (e : Err)
deriving Repr, DecidableEq

/-- One handler call: response category, the room stored afterwards
(`none` when absent from the map), and whether `notifyRoomUpdated`
fired. -/
structure Step where
  res : Res
  room : Option Room
  notify : Bool
deriving Repr, DecidableEq

/-- `room.scores[name] || 0`: object lookup defaulting to 0. -/
def getScore (scores : List (String × Int)) (name : String) : Int :=
  match scores.find? (fun q => q.1 == name) with
  | some q => q.2
  | none => 0

/-- `room.scores[name] = v`: JS object assignment — update in place if
the key exists, otherwise append. -/
def setScore (scores : List (String × Int)) (name : String) (v : Int) :
    List (String × Int) :=
  match scores with
  | [] => [(name, v)]
  | q :: rest => if q.1 == name then (name, v) :: rest else q :: setScore rest name v

/-- `findPlayer(room, username)`: first player whose name matches
case-insensitively, with the JS `|| null` collapsing a falsy (empty)
match to `null`. -/
def findPlayer (room : Room) (username : String) : Option String :=
  match room.players.find? (fun p => jsLower p == jsLower username) with
  | some p => if p = "" then none else some p
  | none => none

/-- `room.drawer?.toLowerCase() === p.toLowerCase()`. -/
def drawerMatches (drawer : Option String) (p : String) : Bool :=
  match drawer with
  | some d => jsLower d == jsLower p
  | none => false

/-- `room.creator || room.host`. -/
def hostName (room : Room) : String :=
  if room.creator = "" then room.host else room.creator

/-- `maskWord(word)`: replace every `[A-Za-z0-9]` character by `'_'`. -/
def maskWord (word : String) : String :=
  String.mk (word.data.map (fun c => if isAlnum c then '_' else c))

/-- The fixed `WORDS` list. -/
def WORDS : List String :=
  ["ice cream", "rainbow", "elephant", "volcano", "dragon",
   "hamburger", "headphones", "bicycle", "piano", "rocket"]

/-- `pickWord()`: `WORDS[randomInt(0, WORDS.length)]`, with the random
draw exposed as a parameter reduced modulo the list length. -/
def pickWord (i : Nat) : String := WORDS.getD (i % WORDS.length) ""

/-- A raw JSON 2-D point as read from a request or the persisted file:
each coordinate is the result of `Number(point?.x)`. -/
structure RawPoint where
  x : JsNum
  y : JsNum
deriving Repr, DecidableEq

/-- `sanitizePoints(points)`: non-arrays become `[]`; every entry is
coerced with `Number(...)` and kept only when both coordinates are
finite.  No clamping happens here. -/
def sanitizePoints (points : Option (List RawPoint)) : List Point :=
  match points with
  | none => []
  | some l => l.filterMap (fun p =>
      match p.x, p.y with
      | .fin x, .fin y => some ⟨x, y⟩
      | _, _ => none)

/-- A raw stroke descriptor (`req.body?.stroke` or a persisted stroke):
`mode`/`color` are `none` when absent or not a string, `size` is the
`Number(...)` coercion of the supplied size. -/
structure RawStrokeIn where
  mode : Option String
  color : Option String
  size : JsNum
  points : Option (List RawPoint)
deriving Repr, DecidableEq

/-- `stroke?.mode` through the optional chaining. -/
def rawMode (s : Option RawStrokeIn) : Option String :=
  match s with
  | none => none
  | some raw => raw.mode

/-- `stroke?.points` through the optional chaining. -/
def rawPoints (s : Option RawStrokeIn) : Option (List RawPoint) :=
  match s with
  | none => none
  | some raw => raw.points

/-- `typeof stroke?.color === "string" ? stroke.color : "#f55a42"`. -/
def rawColor (s : Option RawStrokeIn) : String :=
  match s with
  | none => "#f55a42"
  | some raw => raw.color.getD "#f55a42"

/-- `Number(stroke?.size)`: `Number(undefined)` is `NaN`. -/
def rawSize (s : Option RawStrokeIn) : JsNum :=
  match s with
  | none => .nan
  | some raw => raw.size

/-- `Math.max(1, Math.min(24, Number(size) || 4))`, case by case over
the JS number: `NaN` and `0` are falsy, so `||` yields the default 4,
which is then clamped; `Infinity` is truthy and clamps to 24;
`-Infinity` is truthy and clamps to 1. -/
def clampSize (size : JsNum) : Int :=
  match size with
  | .fin v => if v = 0 then max 1 (min 24 4) else max 1 (min 24 v)
  | .nan => max 1 (min 24 4)
  | .inf => 24
  | .negInf => 1

/-- The stroke-list retention cap applied after a push:
`if (strokes.length > 800) strokes = strokes.slice(length - 800)`. -/
def capStrokes (l : List Stroke) : List Stroke :=
  if l.length > 800 then l.drop (l.length - 800) else l

/-! ## The HTTP handlers (`router.post(...)` bodies), in source order. -/

/-- `router.post("/create")`: the generated collision-free room id is
exposed as a parameter (its random sampling carries no game
semantics). -/
def createHandler (roomId : String) (usernameRaw : String) : Step :=
  let username := jsTrim usernameRaw
  if username = "" then ⟨.err .validation, none, false⟩
  else
    ⟨.ok, some
      { id := roomId, phase := .lobby, creator := username, host := username,
        drawer := none, word := "", players := [username],
        scores := [(username, 0)], guessedPlayers := [], messages := [],
        strokes := [] }, true⟩

/-- The room record built by `router.post("/create")` for a (trimmed,
non-empty) username. -/
def createRoom (roomId username : String) : Room :=
  { id := roomId, phase := .lobby, creator := username, host := username,
    drawer := none, word := "", players := [username],
    scores := [(username, 0)], guessedPlayers := [], messages := [],
    strokes := [] }

/-- `resolvedPlayerName = existingPlayer || username` in the join
handler (`||` collapses a falsy empty match). -/
def joinResolvedName (room : Room) (username : String) : String :=
  match findPlayer room username with
  | some p => if p = "" then username else p
  | none => username

/-- `router.post("/join")`: the blank-input check precedes the room
lookup, matching the source order. -/
def joinHandler (roomOpt : Option Room) (usernameRaw : String) : Step :=
  let username := jsTrim usernameRaw
  if username = "" then ⟨.err .validation, roomOpt, false⟩
  else
    match roomOpt with
    | none => ⟨.err .notFound, none, false⟩
    | some room =>
      match findPlayer room username with
      | some _ => ⟨.ok, some room, false⟩
      | none =>
        ⟨.ok, some
          { room with
            players := room.players ++ [username],
            scores := setScore room.scores username (getScore room.scores username) },
          true⟩

/-- `router.post("/:roomId/start")`: `pick` is the random draw feeding
`pickWord()`. -/
def startHandler (roomOpt : Option Room) (usernameRaw : String) (pick : Nat) : Step :=
  match roomOpt with
  | none => ⟨.err .notFound, none, false⟩
  | some room =>
    let username := jsTrim usernameRaw
    if username = "" then ⟨.err .validation, some room, false⟩
    else if room.players.length < 2 then ⟨.err .validation, some room, false⟩
    else
      match findPlayer room username with
      | none => ⟨.err .policy, some room, false⟩
      | some resolvedPlayer =>
        if jsLower (hostName room) ≠ jsLower resolvedPlayer then
          ⟨.err .policy, some room, false⟩
        else
          ⟨.ok, some
            { room with
              phase := .playing,
              drawer := some (hostName room),
              word := pickWord pick,
              strokes := [],
              guessedPlayers := [],
              messages := [⟨.system, "System", "Round started. Start guessing!"⟩] },
            true⟩

/-- `router.post("/:roomId/guess")`. -/
def guessHandler (roomOpt : Option Room) (usernameRaw textRaw : String) : Step :=
  match roomOpt with
  | none => ⟨.err .notFound, none, false⟩
  | some room =>
    let username := jsTrim usernameRaw
    let text := jsTrim textRaw
    if room.phase ≠ .playing then ⟨.err .validation, some room, false⟩
    else if username = "" ∨ text = "" then ⟨.err .validation, some room, false⟩
    else
      match findPlayer room username with
      | none => ⟨.err .policy, some room, false⟩
      | some resolvedPlayer =>
        if drawerMatches room.drawer resolvedPlayer then
          ⟨.err .policy, some room, false⟩
        else
          let room1 := { room with
            messages := room.messages ++ [⟨.guess, resolvedPlayer, text⟩] }
          if jsLower text = jsLower room1.word ∧ resolvedPlayer ∉ room1.guessedPlayers then
            let guessed := room1.guessedPlayers ++ [resolvedPlayer]
            let guessOrder : Int := guessed.length
            let guesserPoints : Int := max (120 - (guessOrder - 1) * 30) 30
            let scores1 := setScore room1.scores resolvedPlayer
              (getScore room1.scores resolvedPlayer + guesserPoints)
            let scores2 := match room1.drawer with
              | some d => if d = "" then scores1
                  else setScore scores1 d (getScore scores1 d + 15)
              | none => scores1
            ⟨.ok, some
              { room1 with
                guessedPlayers := guessed,
                scores := scores2,
                messages := room1.messages ++
                  [⟨.system, "System",
                    resolvedPlayer ++ " guessed the word! +" ++
                      toString guesserPoints ++ " points."⟩] },
              true⟩
          else ⟨.ok, some room1, true⟩

/-- `router.post("/:roomId/strokes")`. -/
def strokesHandler (roomOpt : Option Room) (usernameRaw : String)
    (strokeIn : Option RawStrokeIn) : Step :=
  match roomOpt with
  | none => ⟨.err .notFound, none, false⟩
  | some room =>
    let username := jsTrim usernameRaw
    if room.phase ≠ .playing then ⟨.err .validation, some room, false⟩
    else
      match findPlayer room username with
      | none => ⟨.err .policy, some room, false⟩
      | some resolvedPlayer =>
        if ¬ drawerMatches room.drawer resolvedPlayer then
          ⟨.err .policy, some room, false⟩
        else
          let mode := if rawMode strokeIn = some "fill" then StrokeMode.fill
            else StrokeMode.stroke
          let points := sanitizePoints (rawPoints strokeIn)
          if mode = .stroke ∧ points.length < 2 then
            ⟨.err .validation, some room, false⟩
          else
            let normalizedStroke : Stroke :=
              { mode, color := rawColor strokeIn,
                size := clampSize (rawSize strokeIn), points }
            ⟨.ok, some
              { room with strokes := capStrokes (room.strokes ++ [normalizedStroke]) },
              true⟩

/-- `router.post("/:roomId/undo")`: no phase guard in the source. -/
def undoHandler (roomOpt : Option Room) (usernameRaw : String) : Step :=
  match roomOpt with
  | none => ⟨.err .notFound, none, false⟩
  | some room =>
    let username := jsTrim usernameRaw
    match findPlayer room username with
    | none => ⟨.err .policy, some room, false⟩
    | some resolvedPlayer =>
      if ¬ drawerMatches room.drawer resolvedPlayer then
        ⟨.err .policy, some room, false⟩
      else if room.strokes.length > 0 then
        ⟨.ok, some { room with strokes := room.strokes.dropLast }, true⟩
      else ⟨.ok, some room, false⟩

/-- `router.post("/:roomId/clear")`: no phase guard in the source. -/
def clearHandler (roomOpt : Option Room) (usernameRaw : String) : Step :=
  match roomOpt with
  | none => ⟨.err .notFound, none, false⟩
  | some room =>
    let username := jsTrim usernameRaw
    match findPlayer room username with
    | none => ⟨.err .policy, some room, false⟩
    | some resolvedPlayer =>
      if ¬ drawerMatches room.drawer resolvedPlayer then
        ⟨.err .policy, some room, false⟩
      else ⟨.ok, some { room with strokes := [] }, true⟩

/-! ## Snapshot serialization (`serializeRoom`). -/

/-- The externally visible projection of a room for one viewer.  Deep
copies are the identity in a functional model, so `messages` and
`strokes` are carried over as-is. -/
structure Snapshot where
  roomId : String
  phase : Phase
  host : String
  drawer : Option String
  players : List (String × Int)
  wordDisplay : String
  canDraw : Bool
  guessedPlayers : List String
  messages : List Message
  strokes : List Stroke
deriving Repr, DecidableEq

/-- Insert an entry into a score-descending list, after every entry with
a greater-or-equal score: the insertion step of a stable descending
sort, matching the JS stable `sort((l, r) => r.score - l.score)`. -/
def insertByScore (p : String × Int) : List (String × Int) → List (String × Int)
  | [] => [p]
  | q :: rest => if q.2 < p.2 then p :: q :: rest else q :: insertByScore p rest

/-- Stable sort by descending score. -/
def sortByScoreDesc : List (String × Int) → List (String × Int)
  | [] => []
  | p :: rest => insertByScore p (sortByScoreDesc rest)

/-- `serializeRoom(room, viewerUsername)`. -/
def serializeRoom (room : Room) (viewer : String) : Snapshot :=
  let normalizedViewer := jsLower (jsTrim viewer)
  let isDrawer : Bool := (normalizedViewer != "") &&
    (match room.drawer with
     | some d => jsLower d == normalizedViewer
     | none => false)
  let wordDisplay := if room.phase = .playing then
      (if isDrawer then room.word else maskWord room.word)
    else ""
  { roomId := room.id,
    phase := room.phase,
    host := hostName room,
    drawer := room.drawer,
    players := sortByScoreDesc (room.players.map (fun n => (n, getScore room.scores n))),
    wordDisplay,
    canDraw := isDrawer,
    guessedPlayers := room.guessedPlayers,
    messages := room.messages,
    strokes := room.strokes }

/-! ## Persistence (`writePersistedRooms` / `normalizePersistedRoom`). -/

/-- A persisted chat message as read back from the JSON file.  String
fields hold the `String(x)` coercion of the raw value, with `""`
standing for any falsy raw value. -/
structure RawMessage where
  type : String
  username : String
  text : String
deriving Repr, DecidableEq

/-- A persisted room record as read back from the JSON file (fields the
normalizer never reads, such as `createdAt`, are omitted).  `Option`
marks the `typeof`/`Array.isArray` gates; absent object keys surface as
`JsNum.nan` score lookups. -/
structure RawRoom where
  id : String
  creator : String
  host : String
  phase : String
  drawer : String
  word : Option String
  players : Option (List String)
  scores : List (String × JsNum)
  guessedPlayers : Option (List String)
  messages : Option (List RawMessage)
  strokes : Option (List RawStrokeIn)
deriving Repr, DecidableEq

/-- `Number(rawRoom?.scores?.[player])`: a missing key coerces to `NaN`. -/
def lookupScore (scores : List (String × JsNum)) (name : String) : JsNum :=
  match scores.find? (fun q => q.1 == name) with
  | some q => q.2
  | none => .nan

/-- Normalization of one persisted message (random-id regeneration
omitted, see header). -/
def normMessage (m : RawMessage) : Option Message :=
  let text := jsTrim m.text
  if text = "" then none
  else
    let uname := jsTrim (if m.username = "" then "System" else m.username)
    some { type := if m.type = "system" then .system else .guess,
           username := if uname = "" then "System" else uname,
           text }

/-- Normalization of one persisted stroke (random-id regeneration
omitted, see header). -/
def normStroke (s : RawStrokeIn) : Option Stroke :=
  let mode := if s.mode = some "fill" then StrokeMode.fill else StrokeMode.stroke
  let points := sanitizePoints s.points
  if mode = .stroke ∧ points.length < 2 then none
  else some { mode, color := s.color.getD "#f55a42",
              size := clampSize s.size, points }

/-- Deduplication keeping first occurrences, against an accumulator of
names already seen. -/
def dedupAux (seen : List String) : List String → List String
  | [] => []
  | x :: rest =>
    if seen.contains x then dedupAux seen rest
    else x :: dedupAux (x :: seen) rest

/-- `Array.from(new Set(list))`: deduplicate keeping the first
occurrence of each name, in order. -/
def dedupFirst (l : List String) : List String := dedupAux [] l

/-- `String(rawRoom?.creator || rawRoom?.host || "").trim()`. -/
def normCreator (raw : RawRoom) : String :=
  jsTrim (if raw.creator = "" then raw.host else raw.creator)

/-- The deduplicated player list of `normalizePersistedRoom`: trimmed
non-empty entries, with the creator unshifted when no entry matches it
case-insensitively, then `Array.from(new Set(...))`. -/
def normPlayerList (raw : RawRoom) : List String :=
  let playerNames0 := match raw.players with
    | some l => (l.map jsTrim).filter (fun p => p != "")
    | none => []
  let playerNames := if playerNames0.any (fun p => jsLower p == jsLower (normCreator raw))
    then playerNames0
    else normCreator raw :: playerNames0
  dedupFirst playerNames

/-- `normalizePersistedRoom(rawRoom)`. -/
def normalizePersistedRoom (raw : RawRoom) : Option Room :=
  let roomId := jsUpper (jsTrim raw.id)
  let creator := normCreator raw
  if roomId = "" ∨ creator = "" then none
  else
    let players := normPlayerList raw
    if players.length = 0 then none
    else
      some { id := roomId,
             phase := if raw.phase = "playing" then .playing else .lobby,
             creator,
             host := creator,
             drawer := players.find? (fun p => jsLower p == jsLower (jsTrim raw.drawer)),
             word := raw.word.getD "",
             players,
             scores := players.map (fun p =>
               (p, match lookupScore raw.scores p with
                   | .fin v => v
                   | _ => 0)),
             guessedPlayers := dedupFirst (match raw.guessedPlayers with
               | some l => (l.map jsTrim).filter
                   (fun g => players.any (fun n => jsLower n == jsLower g))
               | none => []),
             messages := match raw.messages with
               | some l => l.filterMap normMessage
               | none => [],
             strokes := match raw.strokes with
               | some l => l.filterMap normStroke
               | none => [] }

/-- `"lobby"`/`"playing"` as persisted. -/
def phaseString : Phase → String
  | .lobby => "lobby"
  | .playing => "playing"

/-- `"guess"`/`"system"` as persisted. -/
def msgTypeString : MsgType → String
  | .guess => "guess"
  | .system => "system"

/-- `"stroke"`/`"fill"` as persisted. -/
def modeString : StrokeMode → String
  | .stroke => "stroke"
  | .fill => "fill"

/-- A stored point as serialized to JSON. -/
def persistPoint (p : Point) : RawPoint := ⟨.fin p.x, .fin p.y⟩

/-- A stored stroke as serialized to JSON. -/
def persistStroke (s : Stroke) : RawStrokeIn :=
  { mode := some (modeString s.mode), color := some s.color,
    size := .fin s.size, points := some (s.points.map persistPoint) }

/-- A stored message as serialized to JSON. -/
def persistMessage (m : Message) : RawMessage :=
  { type := msgTypeString m.type, username := m.username, text := m.text }

/-- The JSON image of a room written by `writePersistedRooms` (the
`guessedPlayers` set becomes an array via `Array.from`). -/
def persistRoom (r : Room) : RawRoom :=
  { id := r.id, creator := r.creator, host := r.host,
    phase := phaseString r.phase,
    drawer := r.drawer.getD "",
    word := some r.word,
    players := some r.players,
    scores := r.scores.map (fun q => (q.1, JsNum.fin q.2)),
    guessedPlayers := some r.guessedPlayers,
    messages := some (r.messages.map persistMessage),
    strokes := some (r.strokes.map persistStroke) }

/-! ## Reachable room states. -/

/-- Rooms producible by the engine: creation, then any sequence of
join / start / guess / stroke append / undo / clear commands, and
reload of state the engine itself persisted. -/
inductive Reachable : Room → Prop where
  | create (roomId u : String) (r' : Room) :
      (createHandler roomId u).room = some r' → Reachable r'
  | join (r : Room) (u : String) (r' : Room) :
      Reachable r → (joinHandler (some r) u).room = some r' → Reachable r'
  | start (r : Room) (u : String) (pick : Nat) (r' : Room) :
      Reachable r → (startHandler (some r) u pick).room = some r' → Reachable r'
  | guess (r : Room) (u t : String) (r' : Room) :
      Reachable r → (guessHandler (some r) u t).room = some r' → Reachable r'
  | strokes (r : Room) (u : String) (s : Option RawStrokeIn) (r' : Room) :
      Reachable r → (strokesHandler (some r) u s).room = some r' → Reachable r'
  | undo (r : Room) (u : String) (r' : Room) :
      Reachable r → (undoHandler (some r) u).room = some r' → Reachable r'
  | clear (r : Room) (u : String) (r' : Room) :
      Reachable r → (clearHandler (some r) u).room = some r' → Reachable r'
  | reload (r r' : Room) :
      Reachable r → normalizePersistedRoom (persistRoom r) = some r' → Reachable r'

/-! ## Concrete rooms used by witnesses and counterexamples. -/

/-- The room created by `createHandler "AAAAAA" "Ann"`. -/
def roomA : Room := createRoom "AAAAAA" "Ann"

/-- `roomA` after Bob joins. -/
def roomAB : Room :=
  { roomA with players := ["Ann", "Bob"], scores := [("Ann", 0), ("Bob", 0)] }

/-- `roomAB` after Ann starts the round with word draw 4 (`"dragon"`). -/
def roomPlay : Room :=
  { roomAB with
    phase := .playing, drawer := some "Ann", word := "dragon",
    messages := [⟨.system, "System", "Round started. Start guessing!"⟩] }

/-- `roomPlay` is reachable: create, join, start. -/
theorem reachable_roomPlay : Reachable roomPlay := by
  have h0 : Reachable roomA := Reachable.create "AAAAAA" "Ann" roomA (by decide)
  have h1 : Reachable roomAB := Reachable.join roomA "Bob" roomAB h0 (by decide)
  exact Reachable.start roomAB "Ann" 4 roomPlay h1 (by decide)

/-! ## Helper lemmas. -/

theorem getScore_setScore_same (s : List (String × Int)) (k : String) (v : Int) :
    getScore (setScore s k v) k = v := by
  induction s with
  | nil => simp [setScore, getScore]
  | cons q rest ih =>
    by_cases h : q.1 = k
    · simp [setScore, getScore, h]
    · simp only [setScore, getScore] at ih ⊢
      simp [h, ih]

theorem getScore_setScore_other (s : List (String × Int)) (k k' : String) (v : Int)
    (h : k' ≠ k) : getScore (setScore s k v) k' = getScore s k' := by
  induction s with
  | nil => simp [setScore, getScore, Ne.symm h]
  | cons q rest ih =>
    by_cases hq : q.1 = k
    · simp [setScore, getScore, hq, Ne.symm h, h]
    · by_cases hq' : q.1 = k'
      · simp [setScore, getScore, hq, hq', h]
      · simp only [setScore, getScore] at ih ⊢
        simp [hq, hq', ih]

theorem jsLower_eq_empty_iff (s : String) : jsLower s = "" ↔ s = "" := by
  constructor
  · intro h
    have : s.data.map lowerChar = ([] : List Char) := by
      have := congrArg String.data h
      simpa [jsLower] using this
    have hd : s.data = [] := by
      cases hs : s.data with
      | nil => rfl
      | cons c rest => rw [hs] at this; simp at this
    cases s; simp_all
  · intro h; subst h; rfl

theorem jsLower_congr {a b : String} (h : a = b) : jsLower a = jsLower b := by
  rw [h]

/-- C1: On a first-time correct, case-insensitive whole-string match by a
non-drawer player during `playing`, the player joins the guessed set; with
`k` the resulting size of that set, the guesser gains
`max (120 - (k-1)*30) 30`, the drawer gains a flat 15, and a system
message announcing the guesser and the points is appended after the echoed
guess message. -/
theorem guess_first_correct_scoring
    (room : Room) (usernameRaw textRaw : String) (p d : String)
    (hphase : room.phase = .playing)
    (hdrawer : room.drawer = some d)
    (hdne : d ≠ "")
    (hfind : findPlayer room (jsTrim usernameRaw) = some p)
    (hnotdrawer : jsLower d ≠ jsLower p)
    (hune : jsTrim usernameRaw ≠ "")
    (htne : jsTrim textRaw ≠ "")
    (hmatch : jsLower (jsTrim textRaw) = jsLower room.word)
    (hfresh : p ∉ room.guessedPlayers) :
    ∃ room', (guessHandler (some room) usernameRaw textRaw).room = some room' ∧
      (guessHandler (some room) usernameRaw textRaw).res = .ok ∧
      room'.guessedPlayers = room.guessedPlayers ++ [p] ∧
      getScore room'.scores p = getScore room.scores p +
        max (120 - ((room'.guessedPlayers.length : Int) - 1) * 30) 30 ∧
      getScore room'.scores d = getScore room.scores d + 15 ∧
      room'.messages = room.messages ++
        [⟨.guess, p, jsTrim textRaw⟩,
         ⟨.system, "System",
           p ++ " guessed the word! +" ++
             toString (max (120 - ((room'.guessedPlayers.length : Int) - 1) * 30) 30) ++
             " points."⟩] := by
  have hdp : d ≠ p := fun h => hnotdrawer (jsLower_congr h)
  have hdm : drawerMatches (some d) p = false := by
    unfold drawerMatches
    simp [hnotdrawer]
  simp only [guessHandler, hphase, hfind, hdrawer, hdm]
  rw [if_neg (by simp), if_neg (by simp [hune, htne]), if_neg (by simp),
    if_pos (show _ ∧ _ from ⟨hmatch, hfresh⟩), if_neg hdne]
  refine ⟨_, rfl, rfl, rfl, ?_, ?_, by simp⟩
  · rw [getScore_setScore_other _ _ _ _ (Ne.symm hdp), getScore_setScore_same]
  · rw [getScore_setScore_same, getScore_setScore_other _ _ _ _ hdp]

/-- C1 witness: Bob's first correct guess in the concrete started room. -/
theorem guess_first_correct_scoring_witness :
    ∃ room', (guessHandler (some roomPlay) "bob" " Dragon ").room = some room' ∧
      (guessHandler (some roomPlay) "bob" " Dragon ").res = .ok ∧
      room'.guessedPlayers = roomPlay.guessedPlayers ++ ["Bob"] ∧
      getScore room'.scores "Bob" = getScore roomPlay.scores "Bob" +
        max (120 - ((room'.guessedPlayers.length : Int) - 1) * 30) 30 ∧
      getScore room'.scores "Ann" = getScore roomPlay.scores "Ann" + 15 ∧
      room'.messages = roomPlay.messages ++
        [⟨.guess, "Bob", jsTrim " Dragon "⟩,
         ⟨.system, "System",
           "Bob" ++ " guessed the word! +" ++
             toString (max (120 - ((room'.guessedPlayers.length : Int) - 1) * 30) 30) ++
             " points."⟩] :=
  guess_first_correct_scoring roomPlay "bob" " Dragon " "Bob" "Ann"
    (by decide) (by decide) (by decide) (by decide) (by decide)
    (by decide) (by decide) (by decide) (by decide)

theorem maskWord_data (w : String) :
    (maskWord w).data = w.data.map (fun c => if isAlnum c then '_' else c) := rfl

theorem maskWord_length (w : String) : (maskWord w).length = w.length := by
  cases w
  simp [maskWord, String.length]

theorem maskWord_no_alnum (w : String) :
    ∀ c ∈ (maskWord w).data, isAlnum c = false := by
  intro c hc
  rw [maskWord_data] at hc
  obtain ⟨a, _, rfl⟩ := List.mem_map.mp hc
  by_cases h : isAlnum a
  · simp only [h, if_true]
    decide
  · simp [h]

theorem map_fix_of_map_eq_self {f : Char → Char} :
    ∀ (l : List Char), l.map f = l → ∀ c ∈ l, f c = c := by
  intro l
  induction l with
  | nil => simp
  | cons a rest ih =>
    intro h c hc
    rw [List.map_cons] at h
    injection h with h1 h2
    rcases List.mem_cons.mp hc with rfl | hc'
    · exact h1
    · exact ih h2 c hc'

theorem maskWord_ne_of_alnum (w : String) (h : w.data.any isAlnum = true) :
    maskWord w ≠ w := by
  intro he
  have hd : w.data.map (fun c => if isAlnum c then '_' else c) = w.data :=
    congrArg String.data he
  obtain ⟨c, hc, hca⟩ := List.any_eq_true.mp h
  have hfix : (if isAlnum c then '_' else c) = c :=
    map_fix_of_map_eq_self w.data hd c hc
  rw [if_pos hca] at hfix
  rw [← hfix] at hca
  exact absurd hca (by decide)

theorem word_ne_empty_of_alnum (w : String) (h : w.data.any isAlnum = true) :
    w ≠ "" := by
  intro he
  subst he
  simp at h

/-- C2: During `playing`, `wordDisplay` is the literal secret word exactly
for a viewer whose (trimmed) name case-insensitively equals the drawer;
every other viewer sees the mask, which has the word's length, contains no
alphanumeric character, replaces every alphanumeric character by `'_'`
and preserves every non-alphanumeric character; in `lobby` it is empty
for every viewer.  (Stated for a word containing at least one
alphanumeric character — every entry of the fixed word list does.) -/
theorem snapshot_wordDisplay_spec
    (room : Room) (viewer : String) :
    (room.drawer ≠ some "" → room.word.data.any isAlnum = true →
      ((serializeRoom room viewer).wordDisplay = room.word ↔
        (room.phase = .playing ∧
          ∃ d, room.drawer = some d ∧ jsLower (jsTrim viewer) = jsLower d))) ∧
    (room.phase = .playing →
      (∀ d, room.drawer = some d → jsLower (jsTrim viewer) ≠ jsLower d) →
      (serializeRoom room viewer).wordDisplay = maskWord room.word ∧
      (serializeRoom room viewer).wordDisplay.length = room.word.length ∧
      ∀ c ∈ (serializeRoom room viewer).wordDisplay.data, isAlnum c = false) ∧
    (∀ i (h1 : i < room.word.data.length) (h2 : i < (maskWord room.word).data.length),
      (isAlnum (room.word.data.get ⟨i, h1⟩) = false →
        (maskWord room.word).data.get ⟨i, h2⟩ = room.word.data.get ⟨i, h1⟩) ∧
      (isAlnum (room.word.data.get ⟨i, h1⟩) = true →
        (maskWord room.word).data.get ⟨i, h2⟩ = '_')) ∧
    (room.phase = .lobby → (serializeRoom room viewer).wordDisplay = "") := by
  have hmaskpt : ∀ i (h1 : i < room.word.data.length)
      (h2 : i < (maskWord room.word).data.length),
      (isAlnum (room.word.data.get ⟨i, h1⟩) = false →
        (maskWord room.word).data.get ⟨i, h2⟩ = room.word.data.get ⟨i, h1⟩) ∧
      (isAlnum (room.word.data.get ⟨i, h1⟩) = true →
        (maskWord room.word).data.get ⟨i, h2⟩ = '_') := by
    intro i h1 h2
    have hm : (maskWord room.word).data.get ⟨i, h2⟩ =
        (if isAlnum (room.word.data.get ⟨i, h1⟩) then '_'
         else room.word.data.get ⟨i, h1⟩) := by
      simp [maskWord_data, List.get_eq_getElem, List.getElem_map]
    constructor
    · intro hc
      rw [hm, if_neg (by rw [hc]; simp)]
    · intro hc
      rw [hm, if_pos hc]
  cases hph : room.phase with
  | lobby =>
    have hwd : (serializeRoom room viewer).wordDisplay = "" := by
      simp [serializeRoom, hph]
    refine ⟨?_, by simp [hph], hmaskpt, fun _ => hwd⟩
    intro _ hal
    rw [hwd]
    constructor
    · intro h
      exact absurd h.symm (word_ne_empty_of_alnum room.word hal)
    · rintro ⟨hcontra, -⟩
      exact absurd hcontra (by decide)
  | playing =>
    cases hdr : room.drawer with
    | none =>
      have hwd : (serializeRoom room viewer).wordDisplay = maskWord room.word := by
        simp [serializeRoom, hph, hdr]
      refine ⟨?_, fun _ _ => ⟨hwd, ?_, ?_⟩, hmaskpt, ?_⟩
      · intro _ hal
        rw [hwd]
        constructor
        · intro h
          exact absurd h (maskWord_ne_of_alnum room.word hal)
        · rintro ⟨-, d, hd, -⟩
          exact Option.noConfusion hd
      · rw [hwd, maskWord_length]
      · rw [hwd]
        exact maskWord_no_alnum room.word
      · intro hl
        exact absurd hl (by decide)
    | some d =>
      by_cases hv : jsLower (jsTrim viewer) = jsLower d
      · refine ⟨?_, fun _ hno => absurd hv (hno d rfl), hmaskpt, ?_⟩
        · intro hdne _
          have hdn : d ≠ "" := fun h => hdne (congrArg some h)
          have hnd2 : jsLower d ≠ "" := fun h => hdn ((jsLower_eq_empty_iff d).mp h)
          have hwd : (serializeRoom room viewer).wordDisplay = room.word := by
            simp [serializeRoom, hph, hdr, hv, hnd2]
          rw [hwd]
          exact ⟨fun _ => ⟨rfl, d, rfl, hv⟩, fun _ => rfl⟩
        · intro hl
          exact absurd hl (by decide)
      · have hwd : (serializeRoom room viewer).wordDisplay = maskWord room.word := by
          have hbeq : (jsLower d == jsLower (jsTrim viewer)) = false := by
            simp
            exact fun h => hv h.symm
          simp [serializeRoom, hph, hdr, hbeq]
        refine ⟨?_, fun _ _ => ⟨hwd, ?_, ?_⟩, hmaskpt, ?_⟩
        · intro _ hal
          rw [hwd]
          constructor
          · intro h
            exact absurd h (maskWord_ne_of_alnum room.word hal)
          · rintro ⟨-, d', hd', hv'⟩
            injection hd' with hd''
            subst hd''
            exact (hv hv').elim
        · rw [hwd, maskWord_length]
        · rw [hwd]
          exact maskWord_no_alnum room.word
        · intro hl
          exact absurd hl (by decide)

/-- C2 witness: the started concrete room, viewed by the non-drawer Bob. -/
theorem snapshot_wordDisplay_spec_witness :
    (roomPlay.drawer ≠ some "" → roomPlay.word.data.any isAlnum = true →
      ((serializeRoom roomPlay "bob").wordDisplay = roomPlay.word ↔
        (roomPlay.phase = .playing ∧
          ∃ d, roomPlay.drawer = some d ∧ jsLower (jsTrim "bob") = jsLower d))) ∧
    (roomPlay.phase = .playing →
      (∀ d, roomPlay.drawer = some d → jsLower (jsTrim "bob") ≠ jsLower d) →
      (serializeRoom roomPlay "bob").wordDisplay = maskWord roomPlay.word ∧
      (serializeRoom roomPlay "bob").wordDisplay.length = roomPlay.word.length ∧
      ∀ c ∈ (serializeRoom roomPlay "bob").wordDisplay.data, isAlnum c = false) ∧
    (∀ i (h1 : i < roomPlay.word.data.length)
        (h2 : i < (maskWord roomPlay.word).data.length),
      (isAlnum (roomPlay.word.data.get ⟨i, h1⟩) = false →
        (maskWord roomPlay.word).data.get ⟨i, h2⟩ = roomPlay.word.data.get ⟨i, h1⟩) ∧
      (isAlnum (roomPlay.word.data.get ⟨i, h1⟩) = true →
        (maskWord roomPlay.word).data.get ⟨i, h2⟩ = '_')) ∧
    (roomPlay.phase = .lobby → (serializeRoom roomPlay "bob").wordDisplay = "") :=
  snapshot_wordDisplay_spec roomPlay "bob"

theorem pickWord_mem (i : Nat) : pickWord i ∈ WORDS := by
  have h : i % WORDS.length < WORDS.length := Nat.mod_lt _ (by decide)
  rw [pickWord, List.getD_eq_getElem _ _ h]
  exact List.getElem_mem h

theorem pickWord_ne_empty (i : Nat) : pickWord i ≠ "" := by
  intro he
  have hm := pickWord_mem i
  rw [he] at hm
  exact absurd hm (by decide)

/-- C3 counterexample: `roomPlay` is reachable and already `playing`, yet
the host's start command succeeds again (re-rolling the word), so start is
not restricted to the `lobby` phase. -/
theorem start_in_playing_succeeds_cex :
    Reachable roomPlay ∧ roomPlay.phase = .playing ∧
    (startHandler (some roomPlay) "Ann" 8).res = .ok ∧
    (startHandler (some roomPlay) "Ann" 8).room = some
      { roomPlay with word := "piano" } :=
  ⟨reachable_roomPlay, by decide, by decide, by decide⟩

/-- C3 (amended): start succeeds exactly when the room exists, the trimmed
username is non-empty and resolves to a player who case-insensitively
equals the host, and the room has at least two players — the phase is not
consulted.  On success it sets `playing`, drawer ← host, word ← an element
of the fixed list, clears strokes and the guessed set and resets the
message log; on any guarded failure (including an absent room) nothing
is mutated and no notification fires. -/
theorem start_spec (room : Room) (u : String) (pick : Nat) :
    ((startHandler (some room) u pick).res = .ok ↔
      (jsTrim u ≠ "" ∧ 2 ≤ room.players.length ∧
        ∃ p, findPlayer room (jsTrim u) = some p ∧
          jsLower (hostName room) = jsLower p)) ∧
    ((startHandler (some room) u pick).res = .ok →
      (startHandler (some room) u pick).room = some
        { room with
          phase := .playing,
          drawer := some (hostName room),
          word := pickWord pick,
          strokes := [],
          guessedPlayers := [],
          messages := [⟨.system, "System", "Round started. Start guessing!"⟩] } ∧
      pickWord pick ∈ WORDS ∧
      (startHandler (some room) u pick).notify = true) ∧
    (∀ e, (startHandler (some room) u pick).res = .err e →
      (startHandler (some room) u pick).room = some room ∧
      (startHandler (some room) u pick).notify = false) ∧
    (startHandler none u pick).room = none ∧
    (startHandler none u pick).res = .err .notFound := by
  by_cases hu : jsTrim u = ""
  · simp [startHandler, hu]
  · by_cases hn : room.players.length < 2
    · have h2 : ¬ (2 ≤ room.players.length) := by omega
      simp [startHandler, hu, hn, h2]
    · cases hfp : findPlayer room (jsTrim u) with
      | none => simp [startHandler, hu, hn, hfp]
      | some p =>
        by_cases hh : jsLower (hostName room) = jsLower p
        · simp [startHandler, hu, hn, hfp, hh, pickWord_mem]
          omega
        · simp [startHandler, hu, hn, hfp, hh]

/-- C3 witness: the amended characterization evaluated on the concrete
two-player lobby room with host Ann. -/
theorem start_spec_witness :
    ((startHandler (some roomAB) "Ann" 4).res = .ok ↔
      (jsTrim "Ann" ≠ "" ∧ 2 ≤ roomAB.players.length ∧
        ∃ p, findPlayer roomAB (jsTrim "Ann") = some p ∧
          jsLower (hostName roomAB) = jsLower p)) ∧
    ((startHandler (some roomAB) "Ann" 4).res = .ok →
      (startHandler (some roomAB) "Ann" 4).room = some
        { roomAB with
          phase := .playing,
          drawer := some (hostName roomAB),
          word := pickWord 4,
          strokes := [],
          guessedPlayers := [],
          messages := [⟨.system, "System", "Round started. Start guessing!"⟩] } ∧
      pickWord 4 ∈ WORDS ∧
      (startHandler (some roomAB) "Ann" 4).notify = true) ∧
    (∀ e, (startHandler (some roomAB) "Ann" 4).res = .err e →
      (startHandler (some roomAB) "Ann" 4).room = some roomAB ∧
      (startHandler (some roomAB) "Ann" 4).notify = false) ∧
    (startHandler none "Ann" 4).room = none ∧
    (startHandler none "Ann" 4).res = .err .notFound :=
  start_spec roomAB "Ann" 4

theorem create_wp (roomId u : String) (r' : Room)
    (h : (createHandler roomId u).room = some r') :
    r'.word = "" ∧ r'.phase = .lobby := by
  unfold createHandler at h
  by_cases hu : jsTrim u = ""
  · simp [hu] at h
  · simp [hu] at h
    subst h
    exact ⟨rfl, rfl⟩

theorem join_wp (r : Room) (u : String) (r' : Room)
    (h : (joinHandler (some r) u).room = some r') :
    r'.word = r.word ∧ r'.phase = r.phase := by
  unfold joinHandler at h
  by_cases hu : jsTrim u = ""
  · simp [hu] at h
    subst h
    exact ⟨rfl, rfl⟩
  · simp only [hu, if_neg, if_false] at h
    cases hfp : findPlayer r (jsTrim u) with
    | some p =>
      rw [hfp] at h
      simp at h
      subst h
      exact ⟨rfl, rfl⟩
    | none =>
      rw [hfp] at h
      simp at h
      subst h
      exact ⟨rfl, rfl⟩

theorem start_wp (r : Room) (u : String) (pick : Nat) (r' : Room)
    (h : (startHandler (some r) u pick).room = some r') :
    r' = r ∨ (r'.word = pickWord pick ∧ r'.phase = .playing) := by
  unfold startHandler at h
  by_cases hu : jsTrim u = ""
  · simp [hu] at h
    exact Or.inl h.symm
  · by_cases hn : r.players.length < 2
    · simp [hu, hn] at h
      exact Or.inl h.symm
    · cases hfp : findPlayer r (jsTrim u) with
      | none =>
        simp [hu, hn, hfp] at h
        exact Or.inl h.symm
      | some p =>
        by_cases hh : jsLower (hostName r) = jsLower p
        · simp [hu, hn, hfp, hh] at h
          subst h
          exact Or.inr ⟨rfl, rfl⟩
        · simp [hu, hn, hfp, hh] at h
          exact Or.inl h.symm

theorem guess_wp (r : Room) (u t : String) (r' : Room)
    (h : (guessHandler (some r) u t).room = some r') :
    r'.word = r.word ∧ r'.phase = r.phase := by
  unfold guessHandler at h
  by_cases hp : r.phase = Phase.playing
  · by_cases hb : jsTrim u = "" ∨ jsTrim t = ""
    · simp [hp, hb] at h
      subst h
      exact ⟨rfl, rfl⟩
    · cases hfp : findPlayer r (jsTrim u) with
      | none =>
        simp [hp, hb, hfp] at h
        subst h
        exact ⟨rfl, rfl⟩
      | some p =>
        by_cases hdm : drawerMatches r.drawer p = true
        · simp [hp, hb, hfp, hdm] at h
          subst h
          exact ⟨rfl, rfl⟩
        · by_cases hcond : jsLower (jsTrim t) = jsLower r.word ∧ p ∉ r.guessedPlayers
          · simp [hp, hb, hfp, hdm, hcond] at h
            subst h
            exact ⟨rfl, by simp [hp]⟩
          · simp [hp, hb, hfp, hdm, hcond] at h
            subst h
            exact ⟨rfl, by simp [hp]⟩
  · simp [hp] at h
    subst h
    exact ⟨rfl, rfl⟩

theorem strokes_wp (r : Room) (u : String) (sIn : Option RawStrokeIn) (r' : Room)
    (h : (strokesHandler (some r) u sIn).room = some r') :
    r'.word = r.word ∧ r'.phase = r.phase := by
  unfold strokesHandler at h
  by_cases hp : r.phase = Phase.playing
  · cases hfp : findPlayer r (jsTrim u) with
    | none =>
      simp [hp, hfp] at h
      subst h
      exact ⟨rfl, rfl⟩
    | some p =>
      by_cases hdm : drawerMatches r.drawer p = true
      · by_cases hmode : rawMode sIn = some "fill"
        · simp [hp, hfp, hdm, hmode] at h
          subst h
          exact ⟨rfl, by simp [hp]⟩
        · by_cases hlen : (sanitizePoints (rawPoints sIn)).length < 2
          · simp [hp, hfp, hdm, hmode, hlen] at h
            subst h
            exact ⟨rfl, by simp [hp]⟩
          · simp [hp, hfp, hdm, hmode, hlen] at h
            subst h
            exact ⟨rfl, by simp [hp]⟩
      · simp [hp, hfp, hdm] at h
        subst h
        exact ⟨rfl, by simp [hp]⟩
  · simp [hp] at h
    subst h
    exact ⟨rfl, rfl⟩

theorem undo_wp (r : Room) (u : String) (r' : Room)
    (h : (undoHandler (some r) u).room = some r') :
    r'.word = r.word ∧ r'.phase = r.phase := by
  unfold undoHandler at h
  cases hfp : findPlayer r (jsTrim u) with
  | none =>
    simp [hfp] at h
    subst h
    exact ⟨rfl, rfl⟩
  | some p =>
    by_cases hdm : drawerMatches r.drawer p = true
    · by_cases hl : r.strokes.length > 0
      · simp [hfp, hdm, hl] at h
        subst h
        exact ⟨rfl, rfl⟩
      · simp [hfp, hdm, hl] at h
        subst h
        exact ⟨rfl, rfl⟩
    · simp [hfp, hdm] at h
      subst h
      exact ⟨rfl, rfl⟩

theorem clear_wp (r : Room) (u : String) (r' : Room)
    (h : (clearHandler (some r) u).room = some r') :
    r'.word = r.word ∧ r'.phase = r.phase := by
  unfold clearHandler at h
  cases hfp : findPlayer r (jsTrim u) with
  | none =>
    simp [hfp] at h
    subst h
    exact ⟨rfl, rfl⟩
  | some p =>
    by_cases hdm : drawerMatches r.drawer p = true
    · simp [hfp, hdm] at h
      subst h
      exact ⟨rfl, rfl⟩
    · simp [hfp, hdm] at h
      subst h
      exact ⟨rfl, rfl⟩

theorem phaseString_roundtrip (ph : Phase) :
    (if phaseString ph = "playing" then Phase.playing else Phase.lobby) = ph := by
  cases ph with
  | lobby =>
    show (if ("lobby" : String) = "playing" then Phase.playing else Phase.lobby) = Phase.lobby
    rw [if_neg (by decide)]
  | playing =>
    show (if ("playing" : String) = "playing" then Phase.playing else Phase.lobby) = Phase.playing
    rw [if_pos rfl]

theorem reload_wp (r r' : Room)
    (h : normalizePersistedRoom (persistRoom r) = some r') :
    r'.word = r.word ∧ r'.phase = r.phase := by
  simp only [normalizePersistedRoom] at h
  split at h
  · exact Option.noConfusion h
  · split at h
    · exact Option.noConfusion h
    · rw [Option.some.injEq] at h
      subst h
      constructor
      · show ((persistRoom r).word).getD "" = r.word
        simp [persistRoom]
      · show (if (persistRoom r).phase = "playing" then Phase.playing else Phase.lobby) = r.phase
        exact phaseString_roundtrip r.phase

/-- C4: for every room reachable by any sequence of engine operations
(create, join, start, guess, stroke append, undo, clear, and reload of
state the engine itself persisted), the `word` field is non-empty exactly
when the phase is `playing`. -/
theorem word_nonempty_iff_playing (r : Room) (h : Reachable r) :
    r.word ≠ "" ↔ r.phase = .playing := by
  induction h with
  | create roomId u r' hc =>
    obtain ⟨hw, hp⟩ := create_wp roomId u r' hc
    rw [hw, hp]
    simp
  | join r u r' _ hs ih =>
    obtain ⟨hw, hp⟩ := join_wp r u r' hs
    rw [hw, hp]
    exact ih
  | start r u pick r' _ hs ih =>
    rcases start_wp r u pick r' hs with rfl | ⟨hw, hp⟩
    · exact ih
    · rw [hw, hp]
      simp [pickWord_ne_empty]
  | guess r u t r' _ hs ih =>
    obtain ⟨hw, hp⟩ := guess_wp r u t r' hs
    rw [hw, hp]
    exact ih
  | strokes r u sIn r' _ hs ih =>
    obtain ⟨hw, hp⟩ := strokes_wp r u sIn r' hs
    rw [hw, hp]
    exact ih
  | undo r u r' _ hs ih =>
    obtain ⟨hw, hp⟩ := undo_wp r u r' hs
    rw [hw, hp]
    exact ih
  | clear r u r' _ hs ih =>
    obtain ⟨hw, hp⟩ := clear_wp r u r' hs
    rw [hw, hp]
    exact ih
  | reload r r' _ hs ih =>
    obtain ⟨hw, hp⟩ := reload_wp r r' hs
    rw [hw, hp]
    exact ih

/-- C4 witness: the invariant evaluated on the concrete started room. -/
theorem word_nonempty_iff_playing_witness :
    roomPlay.word ≠ "" ↔ roomPlay.phase = .playing :=
  word_nonempty_iff_playing roomPlay reachable_roomPlay

/-! ## C5: stroke-operation guards. -/

/-- A persisted record (hand-editable JSON) whose normalization yields a
lobby room that nevertheless has a drawer and a stored stroke. -/
def rawLobbyDrawer : RawRoom :=
  { id := "CCCCCC", creator := "Ann", host := "Ann", phase := "lobby",
    drawer := "Ann", word := some "",
    players := some ["Ann", "Bob"],
    scores := [("Ann", .fin 0), ("Bob", .fin 0)],
    guessedPlayers := some [],
    messages := some [],
    strokes := some [{ mode := some "fill", color := some "#000000",
                       size := .fin 4, points := some [] }] }

/-- The normalization of `rawLobbyDrawer`. -/
def roomLobbyDrawer : Room :=
  { id := "CCCCCC", phase := .lobby, creator := "Ann", host := "Ann",
    drawer := some "Ann", word := "", players := ["Ann", "Bob"],
    scores := [("Ann", 0), ("Bob", 0)], guessedPlayers := [],
    messages := [], strokes := [⟨.fill, "#000000", 4, []⟩] }

/-- C5 counterexample: a lobby room loaded from the persisted store has a
drawer, and that drawer's clear command succeeds and empties the stroke
list even though the phase is `lobby`, instead of failing with a policy
error — so undo/clear do not require `phase == playing`. -/
theorem clear_in_lobby_succeeds_cex :
    normalizePersistedRoom rawLobbyDrawer = some roomLobbyDrawer ∧
    roomLobbyDrawer.phase = .lobby ∧
    (clearHandler (some roomLobbyDrawer) "Ann").res = .ok ∧
    (clearHandler (some roomLobbyDrawer) "Ann").room =
      some { roomLobbyDrawer with strokes := [] } ∧
    (clearHandler (some roomLobbyDrawer) "Ann").room ≠ some roomLobbyDrawer ∧
    (undoHandler (some roomLobbyDrawer) "Ann").res = .ok := by decide

/-- C5 (amended): append-stroke requires `phase == playing`, failing with
a validation error otherwise, and then requires the caller to resolve to
the drawer, failing with a policy error otherwise; undo and clear check
only the drawer requirement (no phase check at all) and fail with a
policy error otherwise; every such failure leaves the room unchanged and
unnotified, and a resolved drawer's undo/clear succeed in any phase. -/
theorem stroke_ops_guards (room : Room) (u : String) (sIn : Option RawStrokeIn) :
    (room.phase ≠ .playing →
      (strokesHandler (some room) u sIn).res = .err .validation ∧
      (strokesHandler (some room) u sIn).room = some room ∧
      (strokesHandler (some room) u sIn).notify = false) ∧
    ((∀ p, findPlayer room (jsTrim u) = some p → drawerMatches room.drawer p = false) →
      (room.phase = .playing →
        (strokesHandler (some room) u sIn).res = .err .policy ∧
        (strokesHandler (some room) u sIn).room = some room ∧
        (strokesHandler (some room) u sIn).notify = false) ∧
      ((undoHandler (some room) u).res = .err .policy ∧
        (undoHandler (some room) u).room = some room ∧
        (undoHandler (some room) u).notify = false) ∧
      ((clearHandler (some room) u).res = .err .policy ∧
        (clearHandler (some room) u).room = some room ∧
        (clearHandler (some room) u).notify = false)) ∧
    ((∃ p, findPlayer room (jsTrim u) = some p ∧ drawerMatches room.drawer p = true) →
      (undoHandler (some room) u).res = .ok ∧
      (clearHandler (some room) u).res = .ok ∧
      (clearHandler (some room) u).room = some { room with strokes := [] }) := by
  refine ⟨?_, ?_, ?_⟩
  · intro hp
    simp [strokesHandler, hp]
  · intro hnd
    refine ⟨?_, ?_, ?_⟩
    · intro hp
      cases hfp : findPlayer room (jsTrim u) with
      | none => simp [strokesHandler, hp, hfp]
      | some p => simp [strokesHandler, hp, hfp, hnd p hfp]
    · cases hfp : findPlayer room (jsTrim u) with
      | none => simp [undoHandler, hfp]
      | some p => simp [undoHandler, hfp, hnd p hfp]
    · cases hfp : findPlayer room (jsTrim u) with
      | none => simp [clearHandler, hfp]
      | some p => simp [clearHandler, hfp, hnd p hfp]
  · rintro ⟨p, hfp, hdm⟩
    refine ⟨?_, ?_, ?_⟩
    · by_cases hl : room.strokes.length > 0 <;> simp [undoHandler, hfp, hdm, hl]
    · simp [clearHandler, hfp, hdm]
    · simp [clearHandler, hfp, hdm]

/-- C5 witness: the guard characterization evaluated on the lobby room
with a drawer: append-stroke fails with a validation error, while the
drawer's undo and clear succeed despite the lobby phase. -/
theorem stroke_ops_guards_witness :
    ((strokesHandler (some roomLobbyDrawer) "Ann" none).res = .err .validation ∧
     (strokesHandler (some roomLobbyDrawer) "Ann" none).room = some roomLobbyDrawer ∧
     (strokesHandler (some roomLobbyDrawer) "Ann" none).notify = false) ∧
    ((undoHandler (some roomLobbyDrawer) "Ann").res = .ok ∧
     (clearHandler (some roomLobbyDrawer) "Ann").res = .ok ∧
     (clearHandler (some roomLobbyDrawer) "Ann").room =
       some { roomLobbyDrawer with strokes := [] }) :=
  ⟨(stroke_ops_guards roomLobbyDrawer "Ann" none).1 (by decide),
   (stroke_ops_guards roomLobbyDrawer "Ann" none).2.2 ⟨"Ann", by decide, by decide⟩⟩

/-! ## C6: append-stroke point/size handling. -/

/-- Canvas width from the client Room page. -/
def CANVAS_WIDTH : Int := 760

/-- Canvas height from the client Room page. -/
def CANVAS_HEIGHT : Int := 520

/-- The client-side clamp from `getCanvasPoint`
(`Math.max(0, Math.min(CANVAS_WIDTH, x))`, same for `y`): this is the
clamping the spec attributes to `appendStroke`; the server route applies
no clamp of its own. -/
def clampPoint (p : Point) : Point :=
  ⟨max 0 (min CANVAS_WIDTH p.x), max 0 (min CANVAS_HEIGHT p.y)⟩

/-- A stroke-mode request whose points lie far outside the canvas and
whose size is 0. -/
def bigStrokeIn : RawStrokeIn :=
  { mode := none, color := some "#123456", size := .fin 0,
    points := some [⟨.fin 2000, .fin 10⟩, ⟨.nan, .fin 5⟩,
                    ⟨.fin (-50), .fin 9000⟩] }

/-- C6 counterexample: the stored stroke keeps the out-of-bounds points
(2000,10) and (-50,9000) verbatim (only the non-finite point is
discarded) — no clamping to the canvas bounds happens — and a supplied
size of 0 is stored as the default 4, not as the clamp of 0 into
`[1, 24]` (which would be 1). -/
theorem appendStroke_no_clamp_cex :
    (strokesHandler (some roomPlay) "Ann" (some bigStrokeIn)).res = .ok ∧
    ((strokesHandler (some roomPlay) "Ann" (some bigStrokeIn)).room.map Room.strokes) =
      some [⟨.stroke, "#123456", 4, [⟨2000, 10⟩, ⟨-50, 9000⟩]⟩] ∧
    clampPoint ⟨2000, 10⟩ ≠ (⟨2000, 10⟩ : Point) ∧
    clampPoint ⟨-50, 9000⟩ ≠ (⟨-50, 9000⟩ : Point) ∧
    (4 : Int) ≠ max 1 (min 24 (0 : Int)) := by decide

/-- C6 (amended): in stroke mode, fewer than two finite-coordinate points
is a validation error leaving the room unchanged; otherwise the stored
stroke's points are exactly the supplied points with non-finite
coordinates discarded (no clamping), and the stored size is
`Number(size) || 4` clamped into `[1, 24]`: a missing, `NaN` or zero
size becomes 4, an `Infinity` size 24, a `-Infinity` size 1. -/
theorem appendStroke_spec (room : Room) (u : String) (sIn : Option RawStrokeIn) (p : String)
    (hphase : room.phase = .playing)
    (hfind : findPlayer room (jsTrim u) = some p)
    (hdm : drawerMatches room.drawer p = true)
    (hmode : rawMode sIn ≠ some "fill") :
    ((sanitizePoints (rawPoints sIn)).length < 2 →
      (strokesHandler (some room) u sIn).res = .err .validation ∧
      (strokesHandler (some room) u sIn).room = some room ∧
      (strokesHandler (some room) u sIn).notify = false) ∧
    (2 ≤ (sanitizePoints (rawPoints sIn)).length →
      (strokesHandler (some room) u sIn).res = .ok ∧
      (strokesHandler (some room) u sIn).room = some
        { room with
          strokes := capStrokes (room.strokes ++
            [{ mode := .stroke, color := rawColor sIn,
               size := clampSize (rawSize sIn),
               points := sanitizePoints (rawPoints sIn) }]) } ∧
      (strokesHandler (some room) u sIn).notify = true) := by
  constructor
  · intro hlen
    simp [strokesHandler, hphase, hfind, hdm, hmode, hlen]
  · intro hlen
    have hl : ¬ (sanitizePoints (rawPoints sIn)).length < 2 := by omega
    simp [strokesHandler, hphase, hfind, hdm, hmode, hl]

/-- A well-formed two-point stroke request with an oversized brush. -/
def okStrokeIn : RawStrokeIn :=
  { mode := none, color := some "#00ff00", size := .fin 30,
    points := some [⟨.fin 1, .fin 2⟩, ⟨.fin 3, .fin 4⟩] }

/-- A two-point stroke request whose size coerces to `Infinity`. -/
def infStrokeIn : RawStrokeIn :=
  { mode := none, color := some "#2222ff", size := .inf,
    points := some [⟨.fin 5, .fin 6⟩, ⟨.fin 7, .fin 8⟩] }

/-- C6 witness: the amended append-stroke contract evaluated on a
concrete two-point request (size 30 stored as 24), and again on a
request with an `Infinity` size (truthy, so stored as the clamp 24,
not the default 4). -/
theorem appendStroke_spec_witness :
    (((sanitizePoints (rawPoints (some okStrokeIn))).length < 2 →
      (strokesHandler (some roomPlay) "Ann" (some okStrokeIn)).res = .err .validation ∧
      (strokesHandler (some roomPlay) "Ann" (some okStrokeIn)).room = some roomPlay ∧
      (strokesHandler (some roomPlay) "Ann" (some okStrokeIn)).notify = false) ∧
    (2 ≤ (sanitizePoints (rawPoints (some okStrokeIn))).length →
      (strokesHandler (some roomPlay) "Ann" (some okStrokeIn)).res = .ok ∧
      (strokesHandler (some roomPlay) "Ann" (some okStrokeIn)).room = some
        { roomPlay with
          strokes := capStrokes (roomPlay.strokes ++
            [{ mode := .stroke, color := rawColor (some okStrokeIn),
               size := clampSize (rawSize (some okStrokeIn)),
               points := sanitizePoints (rawPoints (some okStrokeIn)) }]) } ∧
      (strokesHandler (some roomPlay) "Ann" (some okStrokeIn)).notify = true)) ∧
    (2 ≤ (sanitizePoints (rawPoints (some infStrokeIn))).length →
      (strokesHandler (some roomPlay) "Ann" (some infStrokeIn)).res = .ok ∧
      (strokesHandler (some roomPlay) "Ann" (some infStrokeIn)).room = some
        { roomPlay with
          strokes := capStrokes (roomPlay.strokes ++
            [{ mode := .stroke, color := rawColor (some infStrokeIn),
               size := clampSize (rawSize (some infStrokeIn)),
               points := sanitizePoints (rawPoints (some infStrokeIn)) }]) } ∧
      (strokesHandler (some roomPlay) "Ann" (some infStrokeIn)).notify = true) ∧
    clampSize (rawSize (some okStrokeIn)) = 24 ∧
    clampSize (rawSize (some infStrokeIn)) = 24 ∧
    clampSize (rawSize (some bigStrokeIn)) = 4 :=
  ⟨appendStroke_spec roomPlay "Ann" (some okStrokeIn) "Ann"
    (by decide) (by decide) (by decide) (by decide),
   (appendStroke_spec roomPlay "Ann" (some infStrokeIn) "Ann"
    (by decide) (by decide) (by decide) (by decide)).2,
   by decide, by decide, by decide⟩

/-! ## C7: repeated guesses by an already-correct player. -/

/-- `roomPlay` after Bob's first correct guess. -/
def roomGuessed : Room :=
  { roomPlay with
    guessedPlayers := ["Bob"],
    scores := [("Ann", 15), ("Bob", 120)],
    messages := roomPlay.messages ++
      [⟨.guess, "Bob", "dragon"⟩,
       ⟨.system, "System", "Bob guessed the word! +120 points."⟩] }

/-- C7: once a player is in the guessed set, any further guess — even an
identical correct one — changes no score and leaves the guessed set
untouched, while the text is still appended as a guess-kind chat
message. -/
theorem guess_already_guessed_no_rescore
    (room : Room) (u t : String) (p : String)
    (hphase : room.phase = .playing)
    (hfind : findPlayer room (jsTrim u) = some p)
    (hdm : drawerMatches room.drawer p = false)
    (hu : jsTrim u ≠ "") (ht : jsTrim t ≠ "")
    (hmem : p ∈ room.guessedPlayers) :
    (guessHandler (some room) u t).res = .ok ∧
    (guessHandler (some room) u t).room = some
      { room with messages := room.messages ++ [⟨.guess, p, jsTrim t⟩] } ∧
    ((guessHandler (some room) u t).room.map Room.scores) = some room.scores ∧
    ((guessHandler (some room) u t).room.map Room.guessedPlayers) =
      some room.guessedPlayers := by
  have hcond : ¬ (jsLower (jsTrim t) = jsLower room.word ∧ p ∉ room.guessedPlayers) :=
    fun hc => hc.2 hmem
  simp [guessHandler, hphase, hfind, hdm, hu, ht, hcond]

/-- C7 witness: Bob repeats the exact correct word after already having
guessed it. -/
theorem guess_already_guessed_no_rescore_witness :
    (guessHandler (some roomGuessed) "BOB" "dragon").res = .ok ∧
    (guessHandler (some roomGuessed) "BOB" "dragon").room = some
      { roomGuessed with
        messages := roomGuessed.messages ++ [⟨.guess, "Bob", jsTrim "dragon"⟩] } ∧
    ((guessHandler (some roomGuessed) "BOB" "dragon").room.map Room.scores) =
      some roomGuessed.scores ∧
    ((guessHandler (some roomGuessed) "BOB" "dragon").room.map Room.guessedPlayers) =
      some roomGuessed.guessedPlayers :=
  guess_already_guessed_no_rescore roomGuessed "BOB" "dragon" "Bob"
    (by decide) (by decide) (by decide) (by decide) (by decide) (by decide)

/-! ## C8: join resolution. -/

theorem findPlayer_none_not_mem (room : Room) (u : String) (hu : u ≠ "")
    (h : findPlayer room u = none) : u ∉ room.players := by
  intro hmem
  unfold findPlayer at h
  cases hf : room.players.find? (fun p => jsLower p == jsLower u) with
  | none =>
    rw [List.find?_eq_none] at hf
    exact absurd (by simp) (hf u hmem)
  | some p0 =>
    simp only [hf] at h
    by_cases h0 : p0 = ""
    · have hpred := List.find?_some hf
      rw [h0] at hpred
      have he : jsLower "" = jsLower u := beq_iff_eq.mp hpred
      have : jsLower u = "" := he.symm
      exact hu ((jsLower_eq_empty_iff u).mp this)
    · rw [if_neg h0] at h
      exact Option.noConfusion h

theorem getScore_eq_zero_of_no_key (scores : List (String × Int)) (u : String)
    (h : ∀ q ∈ scores, q.1 ≠ u) : getScore scores u = 0 := by
  unfold getScore
  cases hf : scores.find? (fun q => q.1 == u) with
  | none => rfl
  | some q =>
    have hq := List.find?_some hf
    have hqm := List.mem_of_find?_eq_some hf
    rw [beq_iff_eq] at hq
    exact absurd hq (h q hqm)

/-- C8: joining with a username that case-insensitively matches an
existing player resolves to that player's canonical name and changes
nothing (no mutation, no notification); a username with no match is
appended as a new player with score 0 and a notification fires. -/
theorem join_idempotent (room : Room) (u : String)
    (hu : jsTrim u ≠ "")
    (hkeys : ∀ q ∈ room.scores, q.1 ∈ room.players) :
    (∀ p, findPlayer room (jsTrim u) = some p →
      joinResolvedName room (jsTrim u) = p ∧
      (joinHandler (some room) u).res = .ok ∧
      (joinHandler (some room) u).room = some room ∧
      (joinHandler (some room) u).notify = false) ∧
    (findPlayer room (jsTrim u) = none →
      (joinHandler (some room) u).res = .ok ∧
      (joinHandler (some room) u).room = some
        { room with
          players := room.players ++ [jsTrim u],
          scores := setScore room.scores (jsTrim u) 0 } ∧
      (joinHandler (some room) u).notify = true ∧
      ∀ r', (joinHandler (some room) u).room = some r' →
        getScore r'.scores (jsTrim u) = 0) := by
  constructor
  · intro p hfp
    have hpne : p ≠ "" := by
      intro hpe
      unfold findPlayer at hfp
      cases hf : room.players.find? (fun q => jsLower q == jsLower (jsTrim u)) with
      | none =>
        simp only [hf] at hfp
        exact Option.noConfusion hfp
      | some p0 =>
        simp only [hf] at hfp
        by_cases h0 : p0 = ""
        · rw [if_pos h0] at hfp
          exact Option.noConfusion hfp
        · rw [if_neg h0] at hfp
          injection hfp with he
          exact h0 (he ▸ hpe)
    refine ⟨?_, ?_, ?_, ?_⟩
    · unfold joinResolvedName
      simp only [hfp]
      rw [if_neg hpne]
    · simp [joinHandler, hu, hfp]
    · simp [joinHandler, hu, hfp]
    · simp [joinHandler, hu, hfp]
  · intro hfp
    have hnm : jsTrim u ∉ room.players := findPlayer_none_not_mem room (jsTrim u) hu hfp
    have hz : getScore room.scores (jsTrim u) = 0 :=
      getScore_eq_zero_of_no_key _ _ (fun q hq he => hnm (he ▸ hkeys q hq))
    refine ⟨by simp [joinHandler, hu, hfp], ?_, by simp [joinHandler, hu, hfp], ?_⟩
    · simp [joinHandler, hu, hfp, hz]
    · intro r' hr'
      simp [joinHandler, hu, hfp] at hr'
      subst hr'
      rw [getScore_setScore_same]
      exact hz

/-- C8 witness: joining as `"ANN"` (an existing player, case-insensitive)
versus joining as `"Cid"` (a new player) on the concrete lobby room. -/
theorem join_idempotent_witness :
    (joinResolvedName roomAB (jsTrim "ANN") = "Ann" ∧
      (joinHandler (some roomAB) "ANN").res = .ok ∧
      (joinHandler (some roomAB) "ANN").room = some roomAB ∧
      (joinHandler (some roomAB) "ANN").notify = false) ∧
    ((joinHandler (some roomAB) "Cid").res = .ok ∧
      (joinHandler (some roomAB) "Cid").room = some
        { roomAB with
          players := roomAB.players ++ [jsTrim "Cid"],
          scores := setScore roomAB.scores (jsTrim "Cid") 0 } ∧
      (joinHandler (some roomAB) "Cid").notify = true) :=
  ⟨(join_idempotent roomAB "ANN" (by decide)
      (by decide)).1 "Ann" (by decide),
   (let h := (join_idempotent roomAB "Cid" (by decide)
      (by decide)).2 (by decide)
    ⟨h.1, h.2.1, h.2.2.1⟩)⟩

/-! ## C9: undo on an empty stroke log. -/

/-- C9: an undo issued by the drawer on an empty stroke log succeeds,
changes nothing and triggers no notification; on a non-empty log it
removes exactly the most recent stroke and notifies. -/
theorem undo_empty_noop (room : Room) (u : String) (p : String)
    (hfind : findPlayer room (jsTrim u) = some p)
    (hdm : drawerMatches room.drawer p = true) :
    (room.strokes = [] →
      (undoHandler (some room) u).res = .ok ∧
      (undoHandler (some room) u).room = some room ∧
      (undoHandler (some room) u).notify = false) ∧
    (∀ hne : room.strokes ≠ [],
      (undoHandler (some room) u).res = .ok ∧
      (undoHandler (some room) u).room = some
        { room with strokes := room.strokes.dropLast } ∧
      (undoHandler (some room) u).notify = true ∧
      room.strokes.dropLast ++ [room.strokes.getLast hne] = room.strokes) := by
  constructor
  · intro he
    have hl : ¬ room.strokes.length > 0 := by simp [he]
    simp [undoHandler, hfind, hdm, hl]
  · intro hne
    have hl : room.strokes.length > 0 := List.length_pos.mpr hne
    refine ⟨?_, ?_, ?_, List.dropLast_append_getLast hne⟩ <;>
      simp [undoHandler, hfind, hdm, hl]

/-- `roomPlay` with one stored stroke. -/
def roomPlayStroke : Room :=
  { roomPlay with strokes := [⟨.fill, "#000000", 4, []⟩] }

/-- C9 witness: the drawer's undo on the concrete empty-log room, and on
the same room with one stroke. -/
theorem undo_empty_noop_witness :
    ((undoHandler (some roomPlay) "Ann").res = .ok ∧
      (undoHandler (some roomPlay) "Ann").room = some roomPlay ∧
      (undoHandler (some roomPlay) "Ann").notify = false) ∧
    ((undoHandler (some roomPlayStroke) "Ann").res = .ok ∧
      (undoHandler (some roomPlayStroke) "Ann").room = some
        { roomPlayStroke with strokes := roomPlayStroke.strokes.dropLast } ∧
      (undoHandler (some roomPlayStroke) "Ann").notify = true) :=
  ⟨(undo_empty_noop roomPlay "Ann" "Ann" (by decide) (by decide)).1 (by decide),
   (let h := (undo_empty_noop roomPlayStroke "Ann" "Ann"
      (by decide) (by decide)).2 (by decide)
    ⟨h.1, h.2.1, h.2.2.1⟩)⟩

/-! ## C10: commands with an unknown username. -/

/-- C10 counterexample: in a lobby room, a guess by an unknown username is
rejected by the phase guard with a validation (400) error — not a policy
(403) error, since the membership check never runs — though the room is
still unchanged. -/
theorem unknown_user_guess_not_policy_cex :
    findPlayer roomAB (jsTrim "zoe") = none ∧
    (guessHandler (some roomAB) "zoe" "hi").res = .err .validation ∧
    (guessHandler (some roomAB) "zoe" "hi").res ≠ .err .policy ∧
    (guessHandler (some roomAB) "zoe" "hi").room = some roomAB ∧
    (guessHandler (some roomAB) "zoe" "hi").notify = false := by decide

/-- C10 (amended): on an existing room, every mutating command with a
username matching no player is rejected without mutation or
notification, and the error category is fully determined: a policy
error whenever the command's earlier guards pass — always for undo and
clear, for guess when the phase is `playing` and username and text are
non-blank, for append stroke when the phase is `playing` — and a
validation-category (400) error otherwise: the phase guard for guess
and append stroke outside `playing`, and the blank-input guard for a
blank guess username or text. -/
theorem unknown_user_rejected (room : Room) (u t : String) (sIn : Option RawStrokeIn)
    (hfind : findPlayer room (jsTrim u) = none) :
    ((guessHandler (some room) u t).room = some room ∧
      (guessHandler (some room) u t).notify = false ∧
      ((guessHandler (some room) u t).res = .err .policy ∨
        (guessHandler (some room) u t).res = .err .validation)) ∧
    (room.phase = .playing → jsTrim u ≠ "" → jsTrim t ≠ "" →
      (guessHandler (some room) u t).res = .err .policy) ∧
    (room.phase ≠ .playing →
      (guessHandler (some room) u t).res = .err .validation) ∧
    (room.phase = .playing → (jsTrim u = "" ∨ jsTrim t = "") →
      (guessHandler (some room) u t).res = .err .validation) ∧
    ((strokesHandler (some room) u sIn).room = some room ∧
      (strokesHandler (some room) u sIn).notify = false ∧
      ((strokesHandler (some room) u sIn).res = .err .policy ∨
        (strokesHandler (some room) u sIn).res = .err .validation)) ∧
    (room.phase = .playing → (strokesHandler (some room) u sIn).res = .err .policy) ∧
    (room.phase ≠ .playing →
      (strokesHandler (some room) u sIn).res = .err .validation) ∧
    ((undoHandler (some room) u).res = .err .policy ∧
      (undoHandler (some room) u).room = some room ∧
      (undoHandler (some room) u).notify = false) ∧
    ((clearHandler (some room) u).res = .err .policy ∧
      (clearHandler (some room) u).room = some room ∧
      (clearHandler (some room) u).notify = false) := by
  refine ⟨?_, ?_, ?_, ?_, ?_, ?_, ?_, ?_, ?_⟩
  · by_cases hp : room.phase = .playing
    · by_cases hu0 : jsTrim u = ""
      · exact ⟨by simp [guessHandler, hp, hu0], by simp [guessHandler, hp, hu0],
          Or.inr (by simp [guessHandler, hp, hu0])⟩
      · by_cases ht0 : jsTrim t = ""
        · exact ⟨by simp [guessHandler, hp, hu0, ht0],
            by simp [guessHandler, hp, hu0, ht0],
            Or.inr (by simp [guessHandler, hp, hu0, ht0])⟩
        · exact ⟨by simp [guessHandler, hp, hu0, ht0, hfind],
            by simp [guessHandler, hp, hu0, ht0, hfind],
            Or.inl (by simp [guessHandler, hp, hu0, ht0, hfind])⟩
    · exact ⟨by simp [guessHandler, hp], by simp [guessHandler, hp],
        Or.inr (by simp [guessHandler, hp])⟩
  · intro hp hu ht
    simp [guessHandler, hp, hu, ht, hfind]
  · intro hp
    simp [guessHandler, hp]
  · intro hp hb
    rcases hb with hb | hb <;> simp [guessHandler, hp, hb]
  · by_cases hp : room.phase = .playing
    · exact ⟨by simp [strokesHandler, hp, hfind], by simp [strokesHandler, hp, hfind],
        Or.inl (by simp [strokesHandler, hp, hfind])⟩
    · exact ⟨by simp [strokesHandler, hp], by simp [strokesHandler, hp],
        Or.inr (by simp [strokesHandler, hp])⟩
  · intro hp
    simp [strokesHandler, hp, hfind]
  · intro hp
    simp [strokesHandler, hp]
  · refine ⟨?_, ?_, ?_⟩ <;> simp [undoHandler, hfind]
  · refine ⟨?_, ?_, ?_⟩ <;> simp [clearHandler, hfind]

/-- C10 witness: the amended rejection contract for the unknown user
`"zoe"`, evaluated on the concrete playing room (policy-error branches)
and on the concrete lobby room (validation-error branches). -/
theorem unknown_user_rejected_witness :
    (((guessHandler (some roomPlay) "zoe" "hi").room = some roomPlay ∧
      (guessHandler (some roomPlay) "zoe" "hi").notify = false ∧
      ((guessHandler (some roomPlay) "zoe" "hi").res = .err .policy ∨
        (guessHandler (some roomPlay) "zoe" "hi").res = .err .validation)) ∧
    (roomPlay.phase = .playing → jsTrim "zoe" ≠ "" → jsTrim "hi" ≠ "" →
      (guessHandler (some roomPlay) "zoe" "hi").res = .err .policy) ∧
    (roomPlay.phase ≠ .playing →
      (guessHandler (some roomPlay) "zoe" "hi").res = .err .validation) ∧
    (roomPlay.phase = .playing → (jsTrim "zoe" = "" ∨ jsTrim "hi" = "") →
      (guessHandler (some roomPlay) "zoe" "hi").res = .err .validation) ∧
    ((strokesHandler (some roomPlay) "zoe" none).room = some roomPlay ∧
      (strokesHandler (some roomPlay) "zoe" none).notify = false ∧
      ((strokesHandler (some roomPlay) "zoe" none).res = .err .policy ∨
        (strokesHandler (some roomPlay) "zoe" none).res = .err .validation)) ∧
    (roomPlay.phase = .playing →
      (strokesHandler (some roomPlay) "zoe" none).res = .err .policy) ∧
    (roomPlay.phase ≠ .playing →
      (strokesHandler (some roomPlay) "zoe" none).res = .err .validation) ∧
    ((undoHandler (some roomPlay) "zoe").res = .err .policy ∧
      (undoHandler (some roomPlay) "zoe").room = some roomPlay ∧
      (undoHandler (some roomPlay) "zoe").notify = false) ∧
    ((clearHandler (some roomPlay) "zoe").res = .err .policy ∧
      (clearHandler (some roomPlay) "zoe").room = some roomPlay ∧
      (clearHandler (some roomPlay) "zoe").notify = false)) ∧
    (((guessHandler (some roomAB) "zoe" "hi").room = some roomAB ∧
      (guessHandler (some roomAB) "zoe" "hi").notify = false ∧
      ((guessHandler (some roomAB) "zoe" "hi").res = .err .policy ∨
        (guessHandler (some roomAB) "zoe" "hi").res = .err .validation)) ∧
    (roomAB.phase = .playing → jsTrim "zoe" ≠ "" → jsTrim "hi" ≠ "" →
      (guessHandler (some roomAB) "zoe" "hi").res = .err .policy) ∧
    (roomAB.phase ≠ .playing →
      (guessHandler (some roomAB) "zoe" "hi").res = .err .validation) ∧
    (roomAB.phase = .playing → (jsTrim "zoe" = "" ∨ jsTrim "hi" = "") →
      (guessHandler (some roomAB) "zoe" "hi").res = .err .validation) ∧
    ((strokesHandler (some roomAB) "zoe" none).room = some roomAB ∧
      (strokesHandler (some roomAB) "zoe" none).notify = false ∧
      ((strokesHandler (some roomAB) "zoe" none).res = .err .policy ∨
        (strokesHandler (some roomAB) "zoe" none).res = .err .validation)) ∧
    (roomAB.phase = .playing →
      (strokesHandler (some roomAB) "zoe" none).res = .err .policy) ∧
    (roomAB.phase ≠ .playing →
      (strokesHandler (some roomAB) "zoe" none).res = .err .validation) ∧
    ((undoHandler (some roomAB) "zoe").res = .err .policy ∧
      (undoHandler (some roomAB) "zoe").room = some roomAB ∧
      (undoHandler (some roomAB) "zoe").notify = false) ∧
    ((clearHandler (some roomAB) "zoe").res = .err .policy ∧
      (clearHandler (some roomAB) "zoe").room = some roomAB ∧
      (clearHandler (some roomAB) "zoe").notify = false)) :=
  ⟨unknown_user_rejected roomPlay "zoe" "hi" none (by decide),
   unknown_user_rejected roomAB "zoe" "hi" none (by decide)⟩

end Scribble
